import Mathlib

/-!
# Cantera one-dimensional flow domain (`StFlow.h`) and grid refiner (`refine.h`)

A shallow embedding of the header-only parts of `StFlow`, `AxiStagnFlow`,
`FreeFlame` and `Refiner`.

Conventions of the embedding:

* `doublereal` is the field `ℚ` wherever the code computes with it: arithmetic
  and comparisons are exact.  Where the code only compares and stores a value (the
  boundary emissivities) the value is a `Double`, which has the infinities and
  not-a-number besides the numbers, with the comparisons of IEEE 754.
* `size_t` values are natural numbers; `npos` is `2 ^ 64 - 1`.
* `std::vector<T>` is `List T`; `v[j]` reads with `List.getD` and `v[j] = a`
  writes with `List.set` (both are only meaningful for `j < v.length`).
* `std::map<int, int>` is an association list with pairwise distinct keys
  (`AList`); `size()` is the number of entries, `find(j) != end()` is a
  successful lookup and `m[j] = v` is `AList.insert`.
* a member function that mutates the object returns the new object; a member
  function that can throw returns the outcome of the call (`Except CanteraError _`)
  together with the object as the call leaves it.
-/

namespace Cantera

/-- The floating point type of the library, embedded as exact rationals. -/
abbrev doublereal : Type := ℚ

/-- The largest `size_t`, used as "no index / all points". -/
def npos : Nat := 2 ^ 64 - 1

/-- Offset of the axial velocity in the solution array. -/
def c_offset_U : Nat := 0
/-- Offset of the strain rate. -/
def c_offset_V : Nat := 1
/-- Offset of the temperature. -/
def c_offset_T : Nat := 2
/-- Offset of (1/r)dP/dr. -/
def c_offset_L : Nat := 3
/-- Offset of the first mass fraction. -/
def c_offset_Y : Nat := 4

/-- A `double` as its comparisons see it: a number, an infinity, or
not-a-number. -/
inductive Double where
  | num (q : ℚ)
  | neg_inf
  | pos_inf
  | nan
  deriving DecidableEq

/-- The comparison `a < b` of two doubles: false as soon as one of them is
not-a-number. -/
def Double.lt : Double → Double → Bool
  | .num a, .num b => decide (a < b)
  | .num _, .pos_inf => true
  | .neg_inf, .num _ => true
  | .neg_inf, .pos_inf => true
  | _, _ => false

/-- The comparison `a > b` of two doubles. -/
def Double.gt (a b : Double) : Bool :=
  Double.lt b a

/-- The value lies in the interval `[0, 1]`: it is a number `q` with
`0 ≤ q ≤ 1`.  Neither an infinity nor not-a-number lies in it. -/
def Double.inUnitInterval : Double → Bool
  | .num q => decide (0 ≤ q ∧ q ≤ 1)
  | _ => false

/-- The exception type: the procedure that raised it and the message. -/
structure CanteraError where
  procedure : String
  msg : String
  deriving DecidableEq, Repr

/-- Conversion of a `size_t` to `int` (two's complement, 32 bits), as performed
by `return m_loc.size();` in a function returning `int`. -/
def size_t_to_int (n : Nat) : Int :=
  if n % 2 ^ 32 < 2 ^ 31 then ((n % 2 ^ 32 : Nat) : Int) else ((n % 2 ^ 32 : Nat) : Int) - 2 ^ 32

/-- The member data of `Refiner` that the inline member functions touch. -/
structure Refiner where
  m_loc : AList (fun _ : Int => Int)
  m_keep : AList (fun _ : Int => Int)
  m_active : List Bool
  m_ratio : doublereal
  m_slope : doublereal
  m_curve : doublereal
  m_npmax : Int

namespace Refiner

/-- Default value of the `ratio` argument of `setCriteria`. -/
def default_ratio : doublereal := 10
/-- Default value of the `slope` argument of `setCriteria`. -/
def default_slope : doublereal := 8 / 10
/-- Default value of the `curve` argument of `setCriteria`. -/
def default_curve : doublereal := 8 / 10

/-- `void setCriteria(ratio, slope, curve)`. -/
def setCriteria (r : Refiner) (ratio slope curve : doublereal) : Refiner :=
  { r with m_ratio := ratio, m_slope := slope, m_curve := curve }

/-- `void setActive(int comp, bool state)`: `m_active[comp] = state`.
The component index is taken non-negative. -/
def setActive (r : Refiner) (comp : Nat) (state : Bool) : Refiner :=
  { r with m_active := r.m_active.set comp state }

/-- `void setMaxPoints(int npmax)`. -/
def setMaxPoints (r : Refiner) (npmax : Int) : Refiner :=
  { r with m_npmax := npmax }

/-- `int nNewPoints() { return m_loc.size(); }`. -/
def nNewPoints (r : Refiner) : Int :=
  size_t_to_int r.m_loc.entries.length

/-- `bool newPointNeeded(int j) { return m_loc.find(j) != m_loc.end(); }`. -/
def newPointNeeded (r : Refiner) (j : Int) : Bool :=
  (r.m_loc.lookup j).isSome

/-- `bool keepPoint(int j) { return m_keep.find(j) != m_keep.end(); }`. -/
def keepPoint (r : Refiner) (j : Int) : Bool :=
  (r.m_keep.lookup j).isSome

end Refiner

/-- The member data of `StFlow` (with the members of its base `Domain1D` that
the inline member functions read: the number of points, the grid, the refiner)
used below.  `m_jac_signals` counts the calls of `needJacUpdate`. -/
structure StFlow where
  m_points : Nat
  m_nsp : Nat
  m_z : List doublereal
  m_dz : List doublereal
  m_visc : List doublereal
  m_epsilon_left : Double
  m_epsilon_right : Double
  m_do_energy : List Bool
  m_fixedtemp : List doublereal
  m_refiner : Refiner
  m_jac_signals : Nat

namespace StFlow

/-- Modelled from the spec: `Domain1D::index`, whose definition is in
`Domain1D.h`; the flat offset of component `n` at point `j` is
`component + (4 + nSpecies) * point`. -/
def index (s : StFlow) (n j : Nat) : Nat :=
  n + (4 + s.m_nsp) * j

/-- Modelled from the spec: `Domain1D::z`, the grid coordinate of point `j`
(the grid is an ordered sequence of coordinates, one per point). -/
def z (s : StFlow) (j : Nat) : doublereal :=
  s.m_z.getD j 0

/-- Modelled from the spec: `Domain1D::needJacUpdate`, the signal to the
Jacobian owner that a structural change occurred; the embedding counts the
signals. -/
def needJacUpdate (s : StFlow) : StFlow :=
  { s with m_jac_signals := s.m_jac_signals + 1 }

/-- `void setTemperature(size_t j, doublereal t)`. -/
def setTemperature (s : StFlow) (j : Nat) (t : doublereal) : StFlow :=
  { s with m_fixedtemp := s.m_fixedtemp.set j t, m_do_energy := s.m_do_energy.set j false }

/-- `doublereal T_fixed(size_t j) const`. -/
def T_fixed (s : StFlow) (j : Nat) : doublereal :=
  s.m_fixedtemp.getD j 0

/-- `bool doEnergy(size_t j)`. -/
def doEnergy (s : StFlow) (j : Nat) : Bool :=
  s.m_do_energy.getD j false

/-- The loop `for (i = 0; i < m_points; i++) { if (!m_do_energy[i]) changed = true;
m_do_energy[i] = true; }` of `solveEnergyEqn`, started from `changed = false`;
returns the final `changed` and the final flags. -/
def solveEnergyEqn_loop (s : StFlow) : Bool × List Bool :=
  (List.range s.m_points).foldl
    (fun acc i => (if !acc.2.getD i false then true else acc.1, acc.2.set i true))
    (false, s.m_do_energy)

/-- `void solveEnergyEqn(size_t j = npos)`. -/
def solveEnergyEqn (s : StFlow) (j : Nat) : StFlow :=
  let cf : Bool × List Bool :=
    if j = npos then solveEnergyEqn_loop s
    else (if !s.m_do_energy.getD j false then true else false, s.m_do_energy.set j true)
  let s1 : StFlow :=
    { s with
      m_do_energy := cf.2,
      m_refiner := ((s.m_refiner.setActive 0 true).setActive 1 true).setActive 2 true }
  if cf.1 then s1.needJacUpdate else s1

/-- `void setBoundaryEmissivities(doublereal e_left, doublereal e_right)`.
Returns the outcome of the call (normal return, or the exception thrown) together
with the state of the object when the call is left.  The two arguments are only
compared and stored, so they range over all doubles. -/
def setBoundaryEmissivities (s : StFlow) (e_left e_right : Double) :
    Except CanteraError Unit × StFlow :=
  if Double.lt e_left (Double.num 0) || Double.gt e_left (Double.num 1) then
    (Except.error ⟨"setBoundaryEmissivities",
      "The left boundary emissivity must be between 0.0 and 1.0!"⟩, s)
  else if Double.lt e_right (Double.num 0) || Double.gt e_right (Double.num 1) then
    (Except.error ⟨"setBoundaryEmissivities",
      "The right boundary emissivity must be between 0.0 and 1.0!"⟩, s)
  else
    (Except.ok (), { s with m_epsilon_left := e_left, m_epsilon_right := e_right })

/-- The loop `for (i = 0; i < m_points; i++) { if (m_do_energy[i]) changed = true;
m_do_energy[i] = false; }` of `fixTemperature`, started from `changed = false`. -/
def fixTemperature_loop (s : StFlow) : Bool × List Bool :=
  (List.range s.m_points).foldl
    (fun acc i => (if acc.2.getD i false then true else acc.1, acc.2.set i false))
    (false, s.m_do_energy)

/-- `void fixTemperature(size_t j = npos)`. -/
def fixTemperature (s : StFlow) (j : Nat) : StFlow :=
  let cf : Bool × List Bool :=
    if j = npos then fixTemperature_loop s
    else (if s.m_do_energy.getD j false then true else false, s.m_do_energy.set j false)
  let s1 : StFlow :=
    { s with
      m_do_energy := cf.2,
      m_refiner := ((s.m_refiner.setActive 0 false).setActive 1 false).setActive 2 false }
  if cf.1 then s1.needJacUpdate else s1

/-- `doublereal T(const doublereal* x, size_t j) const`. -/
def T (s : StFlow) (x : List doublereal) (j : Nat) : doublereal :=
  x.getD (s.index c_offset_T j) 0

/-- A write through `doublereal& T(doublereal* x, size_t j)`: `T(x, j) = v`. -/
def T_write (s : StFlow) (x : List doublereal) (j : Nat) (v : doublereal) : List doublereal :=
  x.set (s.index c_offset_T j) v

/-- `doublereal u(const doublereal* x, size_t j) const`. -/
def u (s : StFlow) (x : List doublereal) (j : Nat) : doublereal :=
  x.getD (s.index c_offset_U j) 0

/-- `doublereal V(const doublereal* x, size_t j) const`. -/
def V (s : StFlow) (x : List doublereal) (j : Nat) : doublereal :=
  x.getD (s.index c_offset_V j) 0

/-- `doublereal lambda(const doublereal* x, size_t j) const`. -/
def lambda (s : StFlow) (x : List doublereal) (j : Nat) : doublereal :=
  x.getD (s.index c_offset_L j) 0

/-- `doublereal Y(const doublereal* x, size_t k, size_t j) const`. -/
def Y (s : StFlow) (x : List doublereal) (k j : Nat) : doublereal :=
  x.getD (s.index (c_offset_Y + k) j) 0

/-- A write through `doublereal& Y(doublereal* x, size_t k, size_t j)`. -/
def Y_write (s : StFlow) (x : List doublereal) (k j : Nat) (v : doublereal) : List doublereal :=
  x.set (s.index (c_offset_Y + k) j) v

/-- `doublereal dVdz(const doublereal* x, size_t j) const`. -/
def dVdz (s : StFlow) (x : List doublereal) (j : Nat) : doublereal :=
  let jloc := if s.u x j > 0 then j else j + 1
  (s.V x jloc - s.V x (jloc - 1)) / s.m_dz.getD (jloc - 1) 0

/-- `doublereal dYdz(const doublereal* x, size_t k, size_t j) const`. -/
def dYdz (s : StFlow) (x : List doublereal) (k j : Nat) : doublereal :=
  let jloc := if s.u x j > 0 then j else j + 1
  (s.Y x k jloc - s.Y x k (jloc - 1)) / s.m_dz.getD (jloc - 1) 0

/-- `doublereal dTdz(const doublereal* x, size_t j) const`. -/
def dTdz (s : StFlow) (x : List doublereal) (j : Nat) : doublereal :=
  let jloc := if s.u x j > 0 then j else j + 1
  (s.T x jloc - s.T x (jloc - 1)) / s.m_dz.getD (jloc - 1) 0

/-- `doublereal shear(const doublereal* x, size_t j) const`. -/
def shear (s : StFlow) (x : List doublereal) (j : Nat) : doublereal :=
  let c1 := s.m_visc.getD (j - 1) 0 * (s.V x j - s.V x (j - 1))
  let c2 := s.m_visc.getD j 0 * (s.V x (j + 1) - s.V x j)
  2 * (c2 / (s.z (j + 1) - s.z j) - c1 / (s.z j - s.z (j - 1))) / (s.z (j + 1) - s.z (j - 1))

end StFlow

/-- The three classes of the hierarchy: the base `StFlow` and the two flow
variants derived from it. -/
inductive FlowClass where
  | StFlow
  | AxiStagnFlow
  | FreeFlame
  deriving DecidableEq, Repr

namespace FlowClass

/-- `virtual std::string flowType()`: `"<none>"` in the base, overridden in both
derived classes. -/
def flowType : FlowClass → String
  | .StFlow => "<none>"
  | .AxiStagnFlow => "Axisymmetric Stagnation"
  | .FreeFlame => "Free Flame"

/-- `virtual bool fixed_mdot()`: `true` in the base, overridden only by
`FreeFlame`. -/
def fixed_mdot : FlowClass → Bool
  | .StFlow => true
  | .AxiStagnFlow => true
  | .FreeFlame => false

end FlowClass

/-- A three-point flow with one species on the grid `0, 1, 3`, with `m_dz`
holding the grid spacings; used to evaluate the derivative stencils. -/
def upwind_example_flow : StFlow :=
  { m_points := 3, m_nsp := 1, m_z := [0, 1, 3], m_dz := [1, 2], m_visc := [1, 1, 1],
    m_epsilon_left := Double.num 0, m_epsilon_right := Double.num 0,
    m_do_energy := [true, true, true], m_fixedtemp := [0, 0, 0],
    m_refiner := ⟨∅, ∅, [true, true, true, true, true], 10, 8 / 10, 8 / 10, 1000⟩,
    m_jac_signals := 0 }

/-- A solution vector for `upwind_example_flow` with velocity `1` at every point
(rows are points; columns are `u, V, T, lambda, Y_0`). -/
def upwind_example_x_pos : List doublereal :=
  [1, 0, 300, 0, 0,
   1, 1, 400, 0, 1 / 10,
   1, 5, 700, 0, 1 / 2]

/-- The same solution vector with velocity `-1` at every point. -/
def upwind_example_x_neg : List doublereal :=
  [-1, 0, 300, 0, 0,
   -1, 1, 400, 0, 1 / 10,
   -1, 5, 700, 0, 1 / 2]

/-- A three-point flow without species on the non-uniform grid `0, 1, 3` with
viscosity `5` at every point. -/
def shear_example_flow : StFlow :=
  { upwind_example_flow with m_nsp := 0, m_visc := [5, 5, 5] }

/-- A solution vector for `shear_example_flow` whose strain rate is
`V(z) = 2 z ^ 2 + 3 z + 1` (columns are `u, V, T, lambda`). -/
def shear_example_x : List doublereal :=
  [0, 1, 0, 0,
   0, 6, 0, 0,
   0, 28, 0, 0]

/-- A three-point flow without species on the uniform grid `0, 2, 4` with
viscosity `5` at every point. -/
def shear_uniform_flow : StFlow :=
  { upwind_example_flow with m_nsp := 0, m_z := [0, 2, 4], m_dz := [2, 2], m_visc := [5, 5, 5] }

/-- The points addressed by the argument `j` of `fixTemperature` and
`solveEnergyEqn`: every point when `j == npos`, the point `j` otherwise. -/
def StFlow.addressed (s : StFlow) (j i : Nat) : Bool :=
  if j = npos then decide (i < s.m_points) else decide (i = j)

/-- A call of one of the two operations that toggle the energy equation. -/
inductive EnergyCall where
  | fixTemperature (j : Nat)
  | solveEnergyEqn (j : Nat)
  deriving DecidableEq, Repr

/-- The argument of a call. -/
def EnergyCall.point : EnergyCall → Nat
  | .fixTemperature j => j
  | .solveEnergyEqn j => j

/-- The state that a call passes to `setActive` for the components 0, 1, 2. -/
def EnergyCall.activates : EnergyCall → Bool
  | .fixTemperature _ => false
  | .solveEnergyEqn _ => true

/-- The argument of a call is a valid point index, or `npos` for all points. -/
def StFlow.validCall (s : StFlow) (c : EnergyCall) : Bool :=
  decide (c.point = npos) || decide (c.point < s.m_points)

/-- Performing one call. -/
def StFlow.call (s : StFlow) : EnergyCall → StFlow
  | .fixTemperature j => s.fixTemperature j
  | .solveEnergyEqn j => s.solveEnergyEqn j

/-- Performing a sequence of calls, first call first. -/
def StFlow.calls (s : StFlow) (cs : List EnergyCall) : StFlow :=
  cs.foldl StFlow.call s

/-- An initial state: one energy flag per point, all true, and the refiner
components 0, 1, 2 present and active. -/
def StFlow.initial (s : StFlow) : Prop :=
  s.m_do_energy = List.replicate s.m_points true ∧
  3 ≤ s.m_refiner.m_active.length ∧
  s.m_refiner.m_active.getD 0 false = true ∧
  s.m_refiner.m_active.getD 1 false = true ∧
  s.m_refiner.m_active.getD 2 false = true

/-- Being an initial state is decidable. -/
instance StFlow.decidableInitial (s : StFlow) : Decidable s.initial := by
  unfold StFlow.initial
  infer_instance

/-- The state of the refiner components 0, 1, 2 determined by a sequence of
calls from an initial state: that of the last call, active if there is none. -/
def refinerActiveAfter (cs : List EnergyCall) : Bool :=
  match cs.getLast? with
  | none => true
  | some c => c.activates

/-- A two-point flow with one species in an initial state. -/
def toggle_example_flow : StFlow :=
  { m_points := 2, m_nsp := 1, m_z := [0, 1], m_dz := [1], m_visc := [1, 1],
    m_epsilon_left := Double.num 0, m_epsilon_right := Double.num 0,
    m_do_energy := [true, true], m_fixedtemp := [0, 0],
    m_refiner := ⟨∅, ∅, [true, true, true, true, true], 10, 8 / 10, 8 / 10, 1000⟩,
    m_jac_signals := 0 }

/-- A refiner in which an insertion after index 2 was recorded twice and an
insertion after index 5 once. -/
def refiner_example : Refiner :=
  { m_loc := (((∅ : AList (fun _ : Int => Int)).insert 2 1).insert 5 1).insert 2 1,
    m_keep := ∅,
    m_active := [true, true, true, true, true],
    m_ratio := 10, m_slope := 8 / 10, m_curve := 8 / 10, m_npmax := 1000 }

/-- Modelled from the spec: the decisions of `Refiner::analyze` that the spec
leaves to the implementer.  `analyze` is only declared in `refine.h`; the spec gives
its slope and curvature metrics up to a "small-value floor" and a "min-range
floor", ranks insertions by a "severity" whose order is "a policy choice the
implementer must make", and drops a point from "keep" only under conditions on
those metrics.  These three decisions are taken as functions of the refiner
state, the grid and the solution. -/
structure RefinePolicy where
  /-- The intervals flagged by the slope or curvature criterion of an active
  component. -/
  componentFlags : Refiner → List doublereal → List doublereal → List Nat
  /-- The metric excess by which the insertion after an index is ranked. -/
  severity : Refiner → List doublereal → List doublereal → Nat → doublereal
  /-- The interior points that fail every retention criterion. -/
  removable : Refiner → List doublereal → List doublereal → Nat → Bool

/-- Modelled from the spec: the length of the interval between the existing
points `i` and `i + 1` of the grid `z`. -/
def Refiner.spacing (z : List doublereal) (i : Nat) : doublereal :=
  z.getD (i + 1) 0 - z.getD i 0

/-- Modelled from the spec: the ratio criterion of `analyze`, "intervals more
than `ratio` times longer than a neighbor are flagged for insertion"; the
interval after index `i` is compared with the interval before it and the interval
after it, where they exist. -/
def Refiner.ratioFlagged (ratio : doublereal) (z : List doublereal) (i : Nat) : Bool :=
  decide (i + 1 < z.length) &&
    ((decide (1 ≤ i) && decide (Refiner.spacing z i > ratio * Refiner.spacing z (i - 1))) ||
     (decide (i + 2 < z.length) &&
        decide (Refiner.spacing z i > ratio * Refiner.spacing z (i + 1))))

/-- Modelled from the spec: the insertions required by `analyze`, recorded as
"insert after index i": the intervals flagged by the ratio criterion or by a
component, each interval once ("not double-flagged"). -/
def Refiner.requiredInsertions (r : Refiner) (pol : RefinePolicy)
    (z x : List doublereal) : List Nat :=
  (List.range (z.length - 1)).filter
    (fun i => Refiner.ratioFlagged r.m_ratio z i || decide (i ∈ pol.componentFlags r z x))

/-- Modelled from the spec: the insertions accepted by `analyze`, which
"enforces the maximum point count": the required insertions "are accepted in
order of severity (largest metric excess first) until the cap is reached", the
cap being the configured maximum number of points of the refined grid. -/
def Refiner.acceptedInsertions (r : Refiner) (pol : RefinePolicy)
    (z x : List doublereal) : List Nat :=
  ((r.requiredInsertions pol z x).insertionSort
      (fun a b => pol.severity r z x b ≤ pol.severity r z x a)).take
    (r.m_npmax - (z.length : Int)).toNat

/-- Modelled from the spec: the points that `analyze` marks "keep": every point
by default, the two grid endpoints always, an interior point unless it fails every
retention criterion. -/
def Refiner.keptPoints (r : Refiner) (pol : RefinePolicy) (z x : List doublereal) : List Nat :=
  (List.range z.length).filter
    (fun j => decide (j = 0) || decide (j + 1 = z.length) || !pol.removable r z x j)

/-- Modelled from the spec: a result map of `analyze` recording the indices of a
list, each by `m[j] = 1` into the cleared map. -/
def Refiner.recorded (l : List Nat) : AList (fun _ : Int => Int) :=
  l.foldl (fun (m : AList (fun _ : Int => Int)) (j : Nat) => m.insert (j : Int) 1) ∅

/-- Modelled from the spec: `Refiner::analyze`, declared in `refine.h` and
defined in `refine.cpp`.  It recomputes the two result maps: `m_loc` records the
accepted insertions and `m_keep` the retained points. -/
def Refiner.analyze (r : Refiner) (pol : RefinePolicy) (z x : List doublereal) : Refiner :=
  { r with
    m_loc := Refiner.recorded (r.acceptedInsertions pol z x),
    m_keep := Refiner.recorded (r.keptPoints pol z x) }

/-- Modelled from the spec: the new point sequence of `getNewGrid` from the
existing point `j` on, "inserting new points at the midpoint of each flagged
interval and omitting points not marked keep". -/
def Refiner.newGridFrom (r : Refiner) : Nat → List doublereal → List doublereal
  | _, [] => []
  | j, [a] => if r.keepPoint (j : Int) then [a] else []
  | j, a :: b :: rest =>
    (if r.keepPoint (j : Int) then [a] else []) ++
      ((if r.newPointNeeded (j : Int) then [(a + b) / 2] else []) ++
        Refiner.newGridFrom r (j + 1) (b :: rest))

/-- Modelled from the spec: `Refiner::getNewGrid`, declared in `refine.h` and
defined in `refine.cpp`; it materializes the new grid from the old grid and the
result of the last `analyze`. -/
def Refiner.getNewGrid (r : Refiner) (z : List doublereal) : List doublereal :=
  r.newGridFrom 0 z

/-- A policy under which no component flags an interval, every insertion has
the same severity and no point is removable. -/
def ratio_only_policy : RefinePolicy :=
  { componentFlags := fun _ _ _ => [],
    severity := fun _ _ _ _ => 0,
    removable := fun _ _ _ _ => false }

/-- The grid `0, 1, 1.1, 10` of the ratio smoothing example. -/
def ratio_example_grid : List doublereal := [0, 1, 11 / 10, 10]

/-- A refiner on which no analysis has run yet: no result recorded, five
components, all active, a maximum of 1000 points. -/
def refiner_fresh : Refiner :=
  { m_loc := ∅, m_keep := ∅,
    m_active := [true, true, true, true, true],
    m_ratio := 10, m_slope := 8 / 10, m_curve := 8 / 10, m_npmax := 1000 }

/-- A refiner with the default criteria and a maximum of 4 points. -/
def refiner_at_cap : Refiner :=
  (refiner_fresh.setMaxPoints 4).setCriteria
    Refiner.default_ratio Refiner.default_slope Refiner.default_curve

/-- A refiner with the default criteria and a maximum of 0 points. -/
def refiner_no_room : Refiner :=
  (refiner_fresh.setMaxPoints 0).setCriteria
    Refiner.default_ratio Refiner.default_slope Refiner.default_curve

/-- A refiner with the default criteria and a maximum of 1000 points. -/
def refiner_default : Refiner :=
  refiner_fresh.setCriteria Refiner.default_ratio Refiner.default_slope Refiner.default_curve

/-- A solution vector on the four-point grid (five components per point) that
is constant in every component, so that every slope and curvature vanishes. -/
def ratio_example_x : List doublereal := List.replicate 20 1

/-! ## Boundary emissivities -/

theorem guard_of_not_nan (e : Double) (he : e ≠ Double.nan) :
    (Double.lt e (Double.num 0) || Double.gt e (Double.num 1)) = !e.inUnitInterval := by
  cases e with
  | num q =>
    unfold Double.gt Double.lt Double.inUnitInterval
    by_cases h0 : q < 0
    · have : ¬ (0 ≤ q ∧ q ≤ 1) := fun h => absurd h.1 (not_le.mpr h0)
      simp [h0, this]
    · by_cases h1 : 1 < q
      · have : ¬ (0 ≤ q ∧ q ≤ 1) := fun h => absurd h.2 (not_le.mpr h1)
        simp [h1, this]
      · have : 0 ≤ q ∧ q ≤ 1 := ⟨not_lt.mp h0, not_lt.mp h1⟩
        simp [h0, h1, this]
  | neg_inf => rfl
  | pos_inf => rfl
  | nan => exact absurd rfl he

/-- What `setBoundaryEmissivities` does on every pair of doubles: it fails exactly
when one of the comparisons `e < 0`, `e > 1` holds for `e_left` or `e_right`; a failing
call leaves the object unchanged; a successful call stores exactly `e_left` and
`e_right` and changes nothing else.  For arguments that are not not-a-number, the
guard holds exactly when one of them lies outside `[0, 1]`. -/
theorem setBoundaryEmissivities_guard (s : StFlow) (e_left e_right : Double) :
    ((s.setBoundaryEmissivities e_left e_right).1 ≠ Except.ok () ↔
        (Double.lt e_left (Double.num 0) || Double.gt e_left (Double.num 1)) = true ∨
        (Double.lt e_right (Double.num 0) || Double.gt e_right (Double.num 1)) = true) ∧
    ((s.setBoundaryEmissivities e_left e_right).1 ≠ Except.ok () →
        (s.setBoundaryEmissivities e_left e_right).2 = s) ∧
    ((s.setBoundaryEmissivities e_left e_right).1 = Except.ok () →
        (s.setBoundaryEmissivities e_left e_right).2 =
          { s with m_epsilon_left := e_left, m_epsilon_right := e_right }) ∧
    (e_left ≠ Double.nan → e_right ≠ Double.nan →
      ((s.setBoundaryEmissivities e_left e_right).1 ≠ Except.ok () ↔
        e_left.inUnitInterval = false ∨ e_right.inUnitInterval = false)) := by
  have hmain :
      ((s.setBoundaryEmissivities e_left e_right).1 ≠ Except.ok () ↔
        (Double.lt e_left (Double.num 0) || Double.gt e_left (Double.num 1)) = true ∨
        (Double.lt e_right (Double.num 0) || Double.gt e_right (Double.num 1)) = true) ∧
      ((s.setBoundaryEmissivities e_left e_right).1 ≠ Except.ok () →
        (s.setBoundaryEmissivities e_left e_right).2 = s) ∧
      ((s.setBoundaryEmissivities e_left e_right).1 = Except.ok () →
        (s.setBoundaryEmissivities e_left e_right).2 =
          { s with m_epsilon_left := e_left, m_epsilon_right := e_right }) := by
    unfold StFlow.setBoundaryEmissivities
    cases hl : (Double.lt e_left (Double.num 0) || Double.gt e_left (Double.num 1)) with
    | true => simp
    | false =>
      cases hr : (Double.lt e_right (Double.num 0) || Double.gt e_right (Double.num 1)) with
      | true => simp
      | false => simp
  refine ⟨hmain.1, hmain.2.1, hmain.2.2, ?_⟩
  intro hln hrn
  rw [hmain.1, guard_of_not_nan e_left hln, guard_of_not_nan e_right hrn]
  cases e_left.inUnitInterval <;> cases e_right.inUnitInterval <;> simp

/-- C1 (the code misses a case): called with not-a-number as the left emissivity
and `0.5` as the right one, `setBoundaryEmissivities` returns normally and stores
not-a-number, although not-a-number does not lie in `[0, 1]`; the same happens with
`0.5` on the left and not-a-number on the right.  Both guards `e < 0 || e > 1` are
false on not-a-number. -/
theorem setBoundaryEmissivities_accepts_nan :
    Double.nan.inUnitInterval = false ∧
    (upwind_example_flow.setBoundaryEmissivities Double.nan (Double.num (1 / 2))).1
      = Except.ok () ∧
    (upwind_example_flow.setBoundaryEmissivities Double.nan (Double.num (1 / 2))).2.m_epsilon_left
      = Double.nan ∧
    (upwind_example_flow.setBoundaryEmissivities (Double.num (1 / 2)) Double.nan).1
      = Except.ok () ∧
    (upwind_example_flow.setBoundaryEmissivities (Double.num (1 / 2)) Double.nan).2.m_epsilon_right
      = Double.nan := by
  have h0 : Double.lt (Double.num (1 / 2)) (Double.num 0) = false := by
    unfold Double.lt
    norm_num
  have h1 : Double.gt (Double.num (1 / 2)) (Double.num 1) = false := by
    unfold Double.gt Double.lt
    norm_num
  have hn0 : Double.lt Double.nan (Double.num 0) = false := rfl
  have hn1 : Double.gt Double.nan (Double.num 1) = false := rfl
  refine ⟨rfl, ?_, ?_, ?_, ?_⟩ <;>
    simp only [StFlow.setBoundaryEmissivities, h0, h1, hn0, hn1, Bool.or_self,
      Bool.false_eq_true, if_false]

/-! ## Flow variants -/

/-- C6: the axisymmetric stagnation flow reports `fixed_mdot() = true` and the free
flame reports `fixed_mdot() = false`; their `flowType()` names are
"Axisymmetric Stagnation" and "Free Flame", which differ from each other and
from the base name "<none>". -/
theorem flow_variants_distinguishable :
    FlowClass.AxiStagnFlow.fixed_mdot = true ∧
    FlowClass.FreeFlame.fixed_mdot = false ∧
    FlowClass.AxiStagnFlow.flowType = "Axisymmetric Stagnation" ∧
    FlowClass.FreeFlame.flowType = "Free Flame" ∧
    FlowClass.StFlow.flowType = "<none>" ∧
    FlowClass.AxiStagnFlow.flowType ≠ FlowClass.FreeFlame.flowType ∧
    FlowClass.AxiStagnFlow.flowType ≠ FlowClass.StFlow.flowType ∧
    FlowClass.FreeFlame.flowType ≠ FlowClass.StFlow.flowType := by
  refine ⟨rfl, rfl, rfl, rfl, rfl, ?_, ?_, ?_⟩ <;> decide

/-! ## Auxiliary facts on vectors -/

theorem getD_set_self {α : Type} (l : List α) (i : Nat) (a d : α) (h : i < l.length) :
    (l.set i a).getD i d = a := by
  simp [List.getD_eq_getElem?_getD, h]

theorem getD_set_other {α : Type} (l : List α) (i j : Nat) (a d : α) (h : i ≠ j) :
    (l.set i a).getD j d = l.getD j d := by
  simp [List.getD_eq_getElem?_getD, List.getElem?_set_ne h]

theorem index_lt_length (n m c p : Nat) (hc : c < n) (hp : p < m) : c + n * p < n * m := by
  have h := Nat.mul_le_mul_left n (Nat.succ_le_of_lt hp)
  rw [Nat.mul_succ] at h
  omega

theorem index_injective (n c p c1 p1 : Nat) (hc : c < n) (hc1 : c1 < n)
    (h : c + n * p = c1 + n * p1) : c = c1 ∧ p = p1 := by
  have hmod : (c + n * p) % n = (c1 + n * p1) % n := by rw [h]
  rw [Nat.add_mul_mod_self_left, Nat.add_mul_mod_self_left, Nat.mod_eq_of_lt hc,
    Nat.mod_eq_of_lt hc1] at hmod
  subst hmod
  have hn : 0 < n := by omega
  have h2 : n * p = n * p1 := by omega
  exact ⟨rfl, Nat.eq_of_mul_eq_mul_left hn h2⟩

/-! ## Fixed temperature -/

/-- C5: for a valid point `j` (the per-point vectors have one entry per point),
after `setTemperature j t` the fixed temperature at `j` is `t` and the energy
equation is disabled at `j`, while the fixed temperature and the energy flag of
every other point are unchanged. -/
theorem setTemperature_spec (s : StFlow) (j : Nat) (t : doublereal)
    (hj : j < s.m_points) (hflags : s.m_do_energy.length = s.m_points)
    (hfixed : s.m_fixedtemp.length = s.m_points) :
    (s.setTemperature j t).T_fixed j = t ∧
    (s.setTemperature j t).doEnergy j = false ∧
    (∀ i, i ≠ j → (s.setTemperature j t).T_fixed i = s.T_fixed i ∧
      (s.setTemperature j t).doEnergy i = s.doEnergy i) := by
  refine ⟨?_, ?_, ?_⟩
  · exact getD_set_self _ _ _ _ (by rw [hfixed]; exact hj)
  · exact getD_set_self _ _ _ _ (by rw [hflags]; exact hj)
  · intro i hi
    exact ⟨getD_set_other _ _ _ _ _ (Ne.symm hi), getD_set_other _ _ _ _ _ (Ne.symm hi)⟩

/-- Witness of C5 on the three-point example flow, at the middle point. -/
theorem setTemperature_spec_witness :
    (upwind_example_flow.setTemperature 1 1500).T_fixed 1 = 1500 ∧
    (upwind_example_flow.setTemperature 1 1500).doEnergy 1 = false ∧
    (∀ i, i ≠ 1 → (upwind_example_flow.setTemperature 1 1500).T_fixed i
        = upwind_example_flow.T_fixed i ∧
      (upwind_example_flow.setTemperature 1 1500).doEnergy i
        = upwind_example_flow.doEnergy i) :=
  setTemperature_spec upwind_example_flow 1 1500 (by decide) rfl rfl

/-! ## Layout of the solution vector -/

/-- C4: with `index c p = c + (4 + nSpecies) * p`, for a valid point `j` and a
species `k < nSpecies` of a solution vector of length `(4 + nSpecies) * nPoints`,
the accessors `u`, `V`, `T`, `lambda` and `Y k` read the entries at the flat
offsets of components `0`, `1`, `2`, `3` and `4 + k` at point `j` (all within the
vector); writing `v` through the mutable `T` (or `Y k`) accessor at `j` and reading
it back gives `v`, and every other (component, point) entry is unchanged. -/
theorem accessor_layout_spec (s : StFlow) (x : List doublereal) (j k : Nat) (v : doublereal)
    (hj : j < s.m_points) (hk : k < s.m_nsp)
    (hx : x.length = (4 + s.m_nsp) * s.m_points) :
    (∀ c p, s.index c p = c + (4 + s.m_nsp) * p) ∧
    (∀ c p, c < 4 + s.m_nsp → p < s.m_points → s.index c p < x.length) ∧
    s.u x j = x.getD (0 + (4 + s.m_nsp) * j) 0 ∧
    s.V x j = x.getD (1 + (4 + s.m_nsp) * j) 0 ∧
    s.T x j = x.getD (2 + (4 + s.m_nsp) * j) 0 ∧
    s.lambda x j = x.getD (3 + (4 + s.m_nsp) * j) 0 ∧
    s.Y x k j = x.getD (4 + k + (4 + s.m_nsp) * j) 0 ∧
    s.T (s.T_write x j v) j = v ∧
    (∀ c p, c < 4 + s.m_nsp → p < s.m_points → (c, p) ≠ (2, j) →
      (s.T_write x j v).getD (s.index c p) 0 = x.getD (s.index c p) 0) ∧
    s.Y (s.Y_write x k j v) k j = v ∧
    (∀ c p, c < 4 + s.m_nsp → p < s.m_points → (c, p) ≠ (4 + k, j) →
      (s.Y_write x k j v).getD (s.index c p) 0 = x.getD (s.index c p) 0) := by
  have hbound : ∀ c p, c < 4 + s.m_nsp → p < s.m_points → s.index c p < x.length := by
    intro c p hc hp
    rw [hx]
    exact index_lt_length _ _ _ _ hc hp
  refine ⟨fun _ _ => rfl, hbound, rfl, rfl, rfl, rfl, rfl, ?_, ?_, ?_, ?_⟩
  · exact getD_set_self _ _ _ _ (hbound c_offset_T j (by unfold c_offset_T; omega) hj)
  · intro c p hc _ hne
    apply getD_set_other
    intro h
    have := index_injective (4 + s.m_nsp) c_offset_T j c p (by unfold c_offset_T; omega) hc h
    exact hne (by rw [← this.1, ← this.2]; rfl)
  · exact getD_set_self _ _ _ _ (hbound (c_offset_Y + k) j (by unfold c_offset_Y; omega) hj)
  · intro c p hc _ hne
    apply getD_set_other
    intro h
    have := index_injective (4 + s.m_nsp) (c_offset_Y + k) j c p
      (by unfold c_offset_Y; omega) hc h
    exact hne (by rw [← this.1, ← this.2]; rfl)

/-- Witness of C4 on the three-point, one-species example, at point `1` and
species `0`. -/
theorem accessor_layout_spec_witness :
    upwind_example_flow.T (upwind_example_flow.T_write upwind_example_x_pos 1 1500) 1 = 1500 ∧
    upwind_example_flow.Y (upwind_example_flow.Y_write upwind_example_x_pos 0 1 (1 / 4)) 0 1
      = 1 / 4 :=
  have h := accessor_layout_spec upwind_example_flow upwind_example_x_pos 1 0 1500
    (by decide) (by decide) rfl
  have h2 := accessor_layout_spec upwind_example_flow upwind_example_x_pos 1 0 (1 / 4)
    (by decide) (by decide) rfl
  ⟨h.2.2.2.2.2.2.2.1, h2.2.2.2.2.2.2.2.2.2.1⟩

/-! ## Upwind convective derivatives -/

/-- C3 (as stated, refuted): on the grid `0, 1, 3` with `m_dz` holding the grid
spacings, at the interior point `1` with positive velocity `dVdz`, `dTdz` and `dYdz`
are not the forward differences, and with negative velocity they are not the
backward differences. -/
theorem upwind_forward_if_positive_fails :
    upwind_example_flow.m_dz.getD 0 0 = upwind_example_flow.z 1 - upwind_example_flow.z 0 ∧
    upwind_example_flow.m_dz.getD 1 0 = upwind_example_flow.z 2 - upwind_example_flow.z 1 ∧
    0 < upwind_example_flow.u upwind_example_x_pos 1 ∧
    upwind_example_flow.dVdz upwind_example_x_pos 1 ≠
      (upwind_example_flow.V upwind_example_x_pos 2 - upwind_example_flow.V upwind_example_x_pos 1)
        / (upwind_example_flow.z 2 - upwind_example_flow.z 1) ∧
    upwind_example_flow.dTdz upwind_example_x_pos 1 ≠
      (upwind_example_flow.T upwind_example_x_pos 2 - upwind_example_flow.T upwind_example_x_pos 1)
        / (upwind_example_flow.z 2 - upwind_example_flow.z 1) ∧
    upwind_example_flow.dYdz upwind_example_x_pos 0 1 ≠
      (upwind_example_flow.Y upwind_example_x_pos 0 2
          - upwind_example_flow.Y upwind_example_x_pos 0 1)
        / (upwind_example_flow.z 2 - upwind_example_flow.z 1) ∧
    ¬ 0 < upwind_example_flow.u upwind_example_x_neg 1 ∧
    upwind_example_flow.dVdz upwind_example_x_neg 1 ≠
      (upwind_example_flow.V upwind_example_x_neg 1 - upwind_example_flow.V upwind_example_x_neg 0)
        / (upwind_example_flow.z 1 - upwind_example_flow.z 0) := by
  have hz0 : upwind_example_flow.z 0 = 0 := rfl
  have hz1 : upwind_example_flow.z 1 = 1 := rfl
  have hz2 : upwind_example_flow.z 2 = 3 := rfl
  have hd0 : upwind_example_flow.m_dz.getD 0 0 = 1 := rfl
  have hd1 : upwind_example_flow.m_dz.getD 1 0 = 2 := rfl
  have hu : upwind_example_flow.u upwind_example_x_pos 1 = 1 := rfl
  have hV0 : upwind_example_flow.V upwind_example_x_pos 0 = 0 := rfl
  have hV1 : upwind_example_flow.V upwind_example_x_pos 1 = 1 := rfl
  have hV2 : upwind_example_flow.V upwind_example_x_pos 2 = 5 := rfl
  have hT0 : upwind_example_flow.T upwind_example_x_pos 0 = 300 := rfl
  have hT1 : upwind_example_flow.T upwind_example_x_pos 1 = 400 := rfl
  have hT2 : upwind_example_flow.T upwind_example_x_pos 2 = 700 := rfl
  have hY0 : upwind_example_flow.Y upwind_example_x_pos 0 0 = 0 := rfl
  have hY1 : upwind_example_flow.Y upwind_example_x_pos 0 1 = 1 / 10 := rfl
  have hY2 : upwind_example_flow.Y upwind_example_x_pos 0 2 = 1 / 2 := rfl
  have hun : upwind_example_flow.u upwind_example_x_neg 1 = -1 := rfl
  have hW0 : upwind_example_flow.V upwind_example_x_neg 0 = 0 := rfl
  have hW1 : upwind_example_flow.V upwind_example_x_neg 1 = 1 := rfl
  have hW2 : upwind_example_flow.V upwind_example_x_neg 2 = 5 := rfl
  have hpos : (1 : ℚ) > 0 := by norm_num
  have hneg : ¬ (-1 : ℚ) > 0 := by norm_num
  simp only [StFlow.dVdz, StFlow.dTdz, StFlow.dYdz, hu, hun, if_pos hpos, if_neg hneg,
    Nat.add_sub_cancel, Nat.sub_self, hz0, hz1, hz2, hd0, hd1, hV0, hV1, hV2, hT0, hT1, hT2,
    hY0, hY1, hY2, hW0, hW1, hW2]
  norm_num

/-- C3 (amended): for an interior point `j` with `m_dz[i] = z[i+1] - z[i]`, the
convective derivatives `dVdz`, `dTdz` and `dYdz` use the backward difference
`(f[j] - f[j-1]) / (z[j] - z[j-1])` when the local velocity `u(x, j)` is positive,
and the forward difference `(f[j+1] - f[j]) / (z[j+1] - z[j])` otherwise. -/
theorem upwind_difference_spec (s : StFlow) (x : List doublereal) (j : Nat) (_hj : 1 ≤ j)
    (hdz0 : s.m_dz.getD (j - 1) 0 = s.z j - s.z (j - 1))
    (hdz1 : s.m_dz.getD j 0 = s.z (j + 1) - s.z j) :
    (0 < s.u x j →
      s.dVdz x j = (s.V x j - s.V x (j - 1)) / (s.z j - s.z (j - 1)) ∧
      s.dTdz x j = (s.T x j - s.T x (j - 1)) / (s.z j - s.z (j - 1)) ∧
      ∀ k, s.dYdz x k j = (s.Y x k j - s.Y x k (j - 1)) / (s.z j - s.z (j - 1))) ∧
    (¬ 0 < s.u x j →
      s.dVdz x j = (s.V x (j + 1) - s.V x j) / (s.z (j + 1) - s.z j) ∧
      s.dTdz x j = (s.T x (j + 1) - s.T x j) / (s.z (j + 1) - s.z j) ∧
      ∀ k, s.dYdz x k j = (s.Y x k (j + 1) - s.Y x k j) / (s.z (j + 1) - s.z j)) := by
  constructor
  · intro hu
    have hu1 : s.u x j > 0 := hu
    simp only [StFlow.dVdz, StFlow.dTdz, StFlow.dYdz, if_pos hu1, hdz0, and_self,
      implies_true]
  · intro hu
    have hu1 : ¬ s.u x j > 0 := hu
    simp only [StFlow.dVdz, StFlow.dTdz, StFlow.dYdz, if_neg hu1, Nat.add_sub_cancel, hdz1,
      and_self, implies_true]

/-- Witness of the amended C3 on the three-point example, at the interior
point `1`: with positive velocity `dVdz` is the backward difference `1`. -/
theorem upwind_difference_spec_witness :
    0 < upwind_example_flow.u upwind_example_x_pos 1 ∧
    upwind_example_flow.dVdz upwind_example_x_pos 1 =
      (upwind_example_flow.V upwind_example_x_pos 1 - upwind_example_flow.V upwind_example_x_pos 0)
        / (upwind_example_flow.z 1 - upwind_example_flow.z 0) :=
  have hu : 0 < upwind_example_flow.u upwind_example_x_pos 1 :=
    show (0 : ℚ) < 1 by norm_num
  have hd0 : upwind_example_flow.m_dz.getD 0 0
      = upwind_example_flow.z 1 - upwind_example_flow.z 0 :=
    show (1 : ℚ) = 1 - 0 by norm_num
  have hd1 : upwind_example_flow.m_dz.getD 1 0
      = upwind_example_flow.z 2 - upwind_example_flow.z 1 :=
    show (2 : ℚ) = 3 - 1 by norm_num
  ⟨hu, ((upwind_difference_spec upwind_example_flow upwind_example_x_pos 1 (by decide)
    hd0 hd1).1 hu).1⟩

/-! ## The viscous stencil -/

/-- C10: over exact arithmetic, at an interior point `j` with
`z[j-1] < z[j] < z[j+1]` and the same viscosity `mu` at `j-1` and `j`, if the
strain rate at the three points lies on `V(z) = a z ^ 2 + b z + c` then
`shear(x, j) = 2 a mu`, whatever the spacing; and if both spacings equal `h` then
`shear(x, j) = mu (V[j+1] - 2 V[j] + V[j-1]) / h ^ 2`. -/
theorem shear_spec (s : StFlow) (x : List doublereal) (j : Nat) (mu : doublereal)
    (hz1 : s.z (j - 1) < s.z j) (hz2 : s.z j < s.z (j + 1))
    (hv1 : s.m_visc.getD (j - 1) 0 = mu) (hv2 : s.m_visc.getD j 0 = mu) :
    (∀ a b c : doublereal,
      s.V x (j - 1) = a * s.z (j - 1) ^ 2 + b * s.z (j - 1) + c →
      s.V x j = a * s.z j ^ 2 + b * s.z j + c →
      s.V x (j + 1) = a * s.z (j + 1) ^ 2 + b * s.z (j + 1) + c →
      s.shear x j = 2 * a * mu) ∧
    (∀ h : doublereal, s.z (j + 1) - s.z j = h → s.z j - s.z (j - 1) = h →
      s.shear x j = mu * (s.V x (j + 1) - 2 * s.V x j + s.V x (j - 1)) / h ^ 2) := by
  have h1 : s.z j - s.z (j - 1) ≠ 0 := sub_ne_zero.mpr (ne_of_gt hz1)
  have h2 : s.z (j + 1) - s.z j ≠ 0 := sub_ne_zero.mpr (ne_of_gt hz2)
  have h3 : s.z (j + 1) - s.z (j - 1) ≠ 0 := sub_ne_zero.mpr (ne_of_gt (lt_trans hz1 hz2))
  constructor
  · intro a b c e0 e1 e2
    simp only [StFlow.shear, hv1, hv2, e0, e1, e2]
    field_simp
    ring
  · intro h e1 e0
    have hh : h ≠ 0 := by rw [← e1]; exact h2
    have e3 : s.z (j + 1) - s.z (j - 1) = 2 * h := by
      have : s.z (j + 1) - s.z (j - 1) = (s.z (j + 1) - s.z j) + (s.z j - s.z (j - 1)) := by ring
      rw [this, e1, e0]; ring
    simp only [StFlow.shear, hv1, hv2, e1, e0, e3]
    field_simp
    ring

/-- Witness of C10: on the non-uniform grid `0, 1, 3` with viscosity `5` and
`V(z) = 2 z ^ 2 + 3 z + 1` the stencil gives `2 * 2 * 5`; on the uniform grid
`0, 2, 4` it gives the second difference over `2 ^ 2`. -/
theorem shear_spec_witness :
    shear_example_flow.shear shear_example_x 1 = 2 * 2 * 5 ∧
    shear_uniform_flow.shear shear_example_x 1 =
      5 * (shear_uniform_flow.V shear_example_x 2 - 2 * shear_uniform_flow.V shear_example_x 1
        + shear_uniform_flow.V shear_example_x 0) / 2 ^ 2 :=
  ⟨(shear_spec shear_example_flow shear_example_x 1 5
      (show (0 : ℚ) < 1 by norm_num) (show (1 : ℚ) < 3 by norm_num) rfl rfl).1 2 3 1
      (show (1 : ℚ) = 2 * 0 ^ 2 + 3 * 0 + 1 by norm_num)
      (show (6 : ℚ) = 2 * 1 ^ 2 + 3 * 1 + 1 by norm_num)
      (show (28 : ℚ) = 2 * 3 ^ 2 + 3 * 3 + 1 by norm_num),
   (shear_spec shear_uniform_flow shear_example_x 1 5
      (show (0 : ℚ) < 2 by norm_num) (show (2 : ℚ) < 4 by norm_num) rfl rfl).2 2
      (show (4 : ℚ) - 2 = 2 by norm_num) (show (2 : ℚ) - 0 = 2 by norm_num)⟩

/-! ## Toggling the energy equation -/

theorem fixTemperature_loop_aux (l : List Bool) (n : Nat) :
    (((List.range n).foldl
        (fun (acc : Bool × List Bool) i =>
          (if acc.2.getD i false then true else acc.1, acc.2.set i false)) (false, l)).1 = true ↔
      ∃ i, i < n ∧ l.getD i false = true) ∧
    ((List.range n).foldl
        (fun (acc : Bool × List Bool) i =>
          (if acc.2.getD i false then true else acc.1, acc.2.set i false)) (false, l)).2.length
      = l.length ∧
    ∀ i, ((List.range n).foldl
        (fun (acc : Bool × List Bool) i =>
          (if acc.2.getD i false then true else acc.1, acc.2.set i false)) (false, l)).2.getD i false
      = if i < n then false else l.getD i false := by
  induction n with
  | zero => simp
  | succ n ih =>
    rw [List.range_succ, List.foldl_append]
    obtain ⟨ih1, ih2, ih3⟩ := ih
    generalize (List.range n).foldl
        (fun (acc : Bool × List Bool) i =>
          (if acc.2.getD i false then true else acc.1, acc.2.set i false)) (false, l) = r at *
    simp only [List.foldl_cons, List.foldl_nil]
    have hn : r.2.getD n false = l.getD n false := by rw [ih3 n]; simp
    refine ⟨?_, ?_, ?_⟩
    · rw [hn]
      constructor
      · intro h
        by_cases hl : l.getD n false = true
        · exact ⟨n, Nat.lt_succ_self n, hl⟩
        · rw [if_neg hl] at h
          obtain ⟨i, hi, hi2⟩ := ih1.mp h
          exact ⟨i, Nat.lt_succ_of_lt hi, hi2⟩
      · rintro ⟨i, hi, hi2⟩
        by_cases hl : l.getD n false = true
        · rw [if_pos hl]
        · rw [if_neg hl]
          apply ih1.mpr
          refine ⟨i, ?_, hi2⟩
          rcases Nat.lt_succ_iff_lt_or_eq.mp hi with h | h
          · exact h
          · subst h; exact absurd hi2 hl
    · rw [List.length_set, ih2]
    · intro i
      by_cases hi : i = n
      · subst hi
        simp only [List.getD_eq_getElem?_getD, List.getElem?_set, Nat.lt_succ_self, if_true]
        by_cases hlen : i < r.2.length <;> simp [hlen]
      · rw [getD_set_other _ _ _ _ _ (Ne.symm hi), ih3 i]
        have : i < n + 1 ↔ i < n := by omega
        simp only [this]

theorem solveEnergyEqn_loop_aux (l : List Bool) (n : Nat) :
    (((List.range n).foldl
        (fun (acc : Bool × List Bool) i =>
          (if !acc.2.getD i false then true else acc.1, acc.2.set i true)) (false, l)).1 = true ↔
      ∃ i, i < n ∧ l.getD i false = false) ∧
    ((List.range n).foldl
        (fun (acc : Bool × List Bool) i =>
          (if !acc.2.getD i false then true else acc.1, acc.2.set i true)) (false, l)).2.length
      = l.length ∧
    ∀ i, ((List.range n).foldl
        (fun (acc : Bool × List Bool) i =>
          (if !acc.2.getD i false then true else acc.1, acc.2.set i true)) (false, l)).2.getD i false
      = if i < n ∧ i < l.length then true else l.getD i false := by
  induction n with
  | zero => simp
  | succ n ih =>
    rw [List.range_succ, List.foldl_append]
    obtain ⟨ih1, ih2, ih3⟩ := ih
    generalize (List.range n).foldl
        (fun (acc : Bool × List Bool) i =>
          (if !acc.2.getD i false then true else acc.1, acc.2.set i true)) (false, l) = r at *
    simp only [List.foldl_cons, List.foldl_nil]
    have hn : r.2.getD n false = l.getD n false := by rw [ih3 n]; simp
    refine ⟨?_, ?_, ?_⟩
    · rw [hn]
      constructor
      · intro h
        by_cases hl : l.getD n false = false
        · exact ⟨n, Nat.lt_succ_self n, hl⟩
        · have hl2 : l.getD n false = true := by simpa using hl
          rw [hl2] at h
          simp only [Bool.not_true, Bool.false_eq_true, if_false] at h
          obtain ⟨i, hi, hi2⟩ := ih1.mp h
          exact ⟨i, Nat.lt_succ_of_lt hi, hi2⟩
      · rintro ⟨i, hi, hi2⟩
        by_cases hl : l.getD n false = false
        · rw [hl]; rfl
        · have hl2 : l.getD n false = true := by simpa using hl
          rw [hl2]
          simp only [Bool.not_true, Bool.false_eq_true, if_false]
          apply ih1.mpr
          refine ⟨i, ?_, hi2⟩
          rcases Nat.lt_succ_iff_lt_or_eq.mp hi with h | h
          · exact h
          · subst h; exact absurd hi2 hl
    · rw [List.length_set, ih2]
    · intro i
      by_cases hi : i = n
      · subst hi
        simp only [List.getD_eq_getElem?_getD, List.getElem?_set, Nat.lt_succ_self, true_and,
          if_true]
        rw [ih2]
        by_cases hlen : i < l.length
        · simp [hlen]
        · have hnone : l[i]? = none := List.getElem?_eq_none (not_lt.mp hlen)
          simp [hlen, hnone]
      · rw [getD_set_other _ _ _ _ _ (Ne.symm hi), ih3 i]
        have : i < n + 1 ↔ i < n := by omega
        simp only [this]

theorem ite_needJacUpdate (c : Bool) (s1 : StFlow) :
    (if c = true then s1.needJacUpdate else s1).m_points = s1.m_points ∧
    (if c = true then s1.needJacUpdate else s1).m_do_energy = s1.m_do_energy ∧
    (if c = true then s1.needJacUpdate else s1).m_refiner = s1.m_refiner ∧
    (if c = true then s1.needJacUpdate else s1).m_jac_signals
      = s1.m_jac_signals + if c = true then 1 else 0 := by
  cases c <;> simp [StFlow.needJacUpdate]

theorem fixTemperature_m_do_energy (s : StFlow) (j : Nat) :
    (s.fixTemperature j).m_do_energy =
      if j = npos then (s.fixTemperature_loop).2 else s.m_do_energy.set j false := by
  unfold StFlow.fixTemperature
  refine (ite_needJacUpdate _ _).2.1.trans ?_
  by_cases hj : j = npos <;> simp [hj]

theorem fixTemperature_m_jac_signals (s : StFlow) (j : Nat) :
    (s.fixTemperature j).m_jac_signals =
      s.m_jac_signals +
        if (if j = npos then (s.fixTemperature_loop).1 else s.m_do_energy.getD j false) = true
        then 1 else 0 := by
  unfold StFlow.fixTemperature
  refine (ite_needJacUpdate _ _).2.2.2.trans ?_
  by_cases hj : j = npos <;> simp [hj]

theorem fixTemperature_m_points (s : StFlow) (j : Nat) :
    (s.fixTemperature j).m_points = s.m_points := by
  unfold StFlow.fixTemperature
  exact (ite_needJacUpdate _ _).1

theorem fixTemperature_m_active (s : StFlow) (j : Nat) :
    (s.fixTemperature j).m_refiner.m_active =
      ((s.m_refiner.m_active.set 0 false).set 1 false).set 2 false := by
  unfold StFlow.fixTemperature
  exact congrArg Refiner.m_active (ite_needJacUpdate _ _).2.2.1

theorem solveEnergyEqn_m_do_energy (s : StFlow) (j : Nat) :
    (s.solveEnergyEqn j).m_do_energy =
      if j = npos then (s.solveEnergyEqn_loop).2 else s.m_do_energy.set j true := by
  unfold StFlow.solveEnergyEqn
  refine (ite_needJacUpdate _ _).2.1.trans ?_
  by_cases hj : j = npos <;> simp [hj]

theorem solveEnergyEqn_m_jac_signals (s : StFlow) (j : Nat) :
    (s.solveEnergyEqn j).m_jac_signals =
      s.m_jac_signals +
        if (if j = npos then (s.solveEnergyEqn_loop).1 else !s.m_do_energy.getD j false) = true
        then 1 else 0 := by
  unfold StFlow.solveEnergyEqn
  refine (ite_needJacUpdate _ _).2.2.2.trans ?_
  by_cases hj : j = npos <;> simp [hj]

theorem solveEnergyEqn_m_points (s : StFlow) (j : Nat) :
    (s.solveEnergyEqn j).m_points = s.m_points := by
  unfold StFlow.solveEnergyEqn
  exact (ite_needJacUpdate _ _).1

theorem solveEnergyEqn_m_active (s : StFlow) (j : Nat) :
    (s.solveEnergyEqn j).m_refiner.m_active =
      ((s.m_refiner.m_active.set 0 true).set 1 true).set 2 true := by
  unfold StFlow.solveEnergyEqn
  exact congrArg Refiner.m_active (ite_needJacUpdate _ _).2.2.1

theorem fixTemperature_length (s : StFlow) (j : Nat) :
    (s.fixTemperature j).m_do_energy.length = s.m_do_energy.length := by
  rw [fixTemperature_m_do_energy]
  split
  · exact (fixTemperature_loop_aux s.m_do_energy s.m_points).2.1
  · exact List.length_set _ _ _

theorem solveEnergyEqn_length (s : StFlow) (j : Nat) :
    (s.solveEnergyEqn j).m_do_energy.length = s.m_do_energy.length := by
  rw [solveEnergyEqn_m_do_energy]
  split
  · exact (solveEnergyEqn_loop_aux s.m_do_energy s.m_points).2.1
  · exact List.length_set _ _ _

theorem fixTemperature_doEnergy (s : StFlow) (j i : Nat) :
    (s.fixTemperature j).doEnergy i = if s.addressed j i = true then false else s.doEnergy i := by
  unfold StFlow.doEnergy StFlow.addressed
  rw [fixTemperature_m_do_energy]
  by_cases hj : j = npos
  · simp only [hj, if_true, decide_eq_true_eq]
    exact (fixTemperature_loop_aux s.m_do_energy s.m_points).2.2 i
  · simp only [hj, if_false, decide_eq_true_eq]
    by_cases hi : i = j
    · subst hi
      simp only [List.getD_eq_getElem?_getD, List.getElem?_set, if_true]
      by_cases hlen : i < s.m_do_energy.length <;> simp [hlen]
    · rw [getD_set_other _ _ _ _ _ (Ne.symm hi), if_neg hi]

theorem solveEnergyEqn_doEnergy (s : StFlow) (j i : Nat) :
    (s.solveEnergyEqn j).doEnergy i =
      if s.addressed j i = true ∧ i < s.m_do_energy.length then true else s.doEnergy i := by
  unfold StFlow.doEnergy StFlow.addressed
  rw [solveEnergyEqn_m_do_energy]
  by_cases hj : j = npos
  · simp only [hj, if_true, decide_eq_true_eq]
    exact (solveEnergyEqn_loop_aux s.m_do_energy s.m_points).2.2 i
  · simp only [hj, if_false, decide_eq_true_eq]
    by_cases hi : i = j
    · subst hi
      simp only [List.getD_eq_getElem?_getD, List.getElem?_set, if_true, true_and]
      by_cases hlen : i < s.m_do_energy.length
      · simp [hlen]
      · have hnone : s.m_do_energy[i]? = none := List.getElem?_eq_none (not_lt.mp hlen)
        simp [hlen, hnone]
    · rw [getD_set_other _ _ _ _ _ (Ne.symm hi)]
      simp [hi]

theorem fixTemperature_changed (s : StFlow) (j : Nat) :
    (if j = npos then (s.fixTemperature_loop).1 else s.m_do_energy.getD j false) = true ↔
      ∃ i, s.addressed j i = true ∧ s.doEnergy i = true := by
  unfold StFlow.addressed StFlow.doEnergy
  by_cases hj : j = npos
  · simp only [hj, if_true, decide_eq_true_eq]
    exact (fixTemperature_loop_aux s.m_do_energy s.m_points).1
  · simp only [hj, if_false, decide_eq_true_eq]
    constructor
    · intro h; exact ⟨j, rfl, h⟩
    · rintro ⟨i, rfl, h⟩; exact h

theorem solveEnergyEqn_changed (s : StFlow) (j : Nat) :
    (if j = npos then (s.solveEnergyEqn_loop).1 else !s.m_do_energy.getD j false) = true ↔
      ∃ i, s.addressed j i = true ∧ s.doEnergy i = false := by
  unfold StFlow.addressed StFlow.doEnergy
  by_cases hj : j = npos
  · simp only [hj, if_true, decide_eq_true_eq]
    exact (solveEnergyEqn_loop_aux s.m_do_energy s.m_points).1
  · simp only [hj, if_false, decide_eq_true_eq]
    constructor
    · intro h; exact ⟨j, rfl, by simpa using h⟩
    · rintro ⟨i, rfl, h⟩; rw [h]; rfl

/-- C2: for a flow with one energy flag per point and an argument `j` that is a
valid point index or `npos` (all points), `fixTemperature j` signals
`needJacUpdate` (once) if and only if some addressed point had its energy flag
true before the call, `solveEnergyEqn j` signals (once) if and only if some
addressed point had its flag false before the call, neither signals otherwise, and
repeating the same call immediately does not signal again. -/
theorem energy_toggle_signal_spec (s : StFlow) (j : Nat)
    (hflags : s.m_do_energy.length = s.m_points) (hj : j = npos ∨ j < s.m_points) :
    ((s.fixTemperature j).m_jac_signals = s.m_jac_signals + 1 ↔
      ∃ i, s.addressed j i = true ∧ s.doEnergy i = true) ∧
    ((s.fixTemperature j).m_jac_signals = s.m_jac_signals ↔
      ¬ ∃ i, s.addressed j i = true ∧ s.doEnergy i = true) ∧
    ((s.solveEnergyEqn j).m_jac_signals = s.m_jac_signals + 1 ↔
      ∃ i, s.addressed j i = true ∧ s.doEnergy i = false) ∧
    ((s.solveEnergyEqn j).m_jac_signals = s.m_jac_signals ↔
      ¬ ∃ i, s.addressed j i = true ∧ s.doEnergy i = false) ∧
    ((s.fixTemperature j).fixTemperature j).m_jac_signals = (s.fixTemperature j).m_jac_signals ∧
    ((s.solveEnergyEqn j).solveEnergyEqn j).m_jac_signals
      = (s.solveEnergyEqn j).m_jac_signals := by
  have hfix : ∀ t : StFlow,
      ((t.fixTemperature j).m_jac_signals = t.m_jac_signals + 1 ↔
        ∃ i, t.addressed j i = true ∧ t.doEnergy i = true) ∧
      ((t.fixTemperature j).m_jac_signals = t.m_jac_signals ↔
        ¬ ∃ i, t.addressed j i = true ∧ t.doEnergy i = true) := by
    intro t
    rw [fixTemperature_m_jac_signals, ← fixTemperature_changed]
    by_cases h : (if j = npos then (t.fixTemperature_loop).1 else t.m_do_energy.getD j false) = true
    · simp [h]
    · simp [h]
  have hsolve : ∀ t : StFlow,
      ((t.solveEnergyEqn j).m_jac_signals = t.m_jac_signals + 1 ↔
        ∃ i, t.addressed j i = true ∧ t.doEnergy i = false) ∧
      ((t.solveEnergyEqn j).m_jac_signals = t.m_jac_signals ↔
        ¬ ∃ i, t.addressed j i = true ∧ t.doEnergy i = false) := by
    intro t
    rw [solveEnergyEqn_m_jac_signals, ← solveEnergyEqn_changed]
    by_cases h :
      (if j = npos then (t.solveEnergyEqn_loop).1 else !t.m_do_energy.getD j false) = true
    · simp [h]
    · simp [h]
  refine ⟨(hfix s).1, (hfix s).2, (hsolve s).1, (hsolve s).2, ?_, ?_⟩
  · apply (hfix (s.fixTemperature j)).2.mpr
    rintro ⟨i, hi, hi2⟩
    have haddr : s.addressed j i = true := by
      unfold StFlow.addressed at hi ⊢
      rw [fixTemperature_m_points] at hi
      exact hi
    rw [fixTemperature_doEnergy, if_pos haddr] at hi2
    exact Bool.false_ne_true hi2
  · apply (hsolve (s.solveEnergyEqn j)).2.mpr
    rintro ⟨i, hi, hi2⟩
    have haddr : s.addressed j i = true := by
      unfold StFlow.addressed at hi ⊢
      rw [solveEnergyEqn_m_points] at hi
      exact hi
    have hlt : i < s.m_do_energy.length := by
      unfold StFlow.addressed at haddr
      rw [hflags]
      rcases hj with hj | hj
      · simpa [hj] using haddr
      · by_cases hn : j = npos
        · simpa [hn] using haddr
        · have : i = j := by simpa [hn] using haddr
          omega
    rw [solveEnergyEqn_doEnergy, if_pos ⟨haddr, hlt⟩] at hi2
    exact Bool.noConfusion hi2

/-- Witness of C2 on the two-point example in its initial state, addressing
all points: the first `fixTemperature` signals, its immediate repetition does
not. -/
theorem energy_toggle_signal_spec_witness :
    (toggle_example_flow.fixTemperature npos).m_jac_signals
      = toggle_example_flow.m_jac_signals + 1 ∧
    ((toggle_example_flow.fixTemperature npos).fixTemperature npos).m_jac_signals
      = (toggle_example_flow.fixTemperature npos).m_jac_signals :=
  have h := energy_toggle_signal_spec toggle_example_flow npos rfl (Or.inl rfl)
  ⟨h.1.mpr ⟨0, by decide, by decide⟩, h.2.2.2.2.1⟩

/-! ## The refiner's active components under energy toggling -/

/-- C9 (as stated, refuted): from the initial two-point state, fixing the
temperature at all points and then re-enabling the energy equation at point `0`
only (both calls valid) leaves the energy equation disabled at point `1` while the
refiner components 0, 1 and 2 are active. -/
theorem energy_disabled_refiner_inactive_fails :
    toggle_example_flow.initial ∧
    (∀ c ∈ [EnergyCall.fixTemperature npos, EnergyCall.solveEnergyEqn 0],
      toggle_example_flow.validCall c = true) ∧
    1 < toggle_example_flow.m_points ∧
    (toggle_example_flow.calls
      [EnergyCall.fixTemperature npos, EnergyCall.solveEnergyEqn 0]).doEnergy 1 = false ∧
    (toggle_example_flow.calls
      [EnergyCall.fixTemperature npos, EnergyCall.solveEnergyEqn 0]).m_refiner.m_active.getD 0 false
        = true ∧
    (toggle_example_flow.calls
      [EnergyCall.fixTemperature npos, EnergyCall.solveEnergyEqn 0]).m_refiner.m_active.getD 1 false
        = true ∧
    (toggle_example_flow.calls
      [EnergyCall.fixTemperature npos, EnergyCall.solveEnergyEqn 0]).m_refiner.m_active.getD 2 false
        = true := by
  decide

theorem setActive_three (a : List Bool) (b : Bool) :
    (((a.set 0 b).set 1 b).set 2 b).length = a.length ∧
    (∀ c, 3 ≤ c → (((a.set 0 b).set 1 b).set 2 b).getD c false = a.getD c false) ∧
    (3 ≤ a.length → ∀ c, c < 3 → (((a.set 0 b).set 1 b).set 2 b).getD c false = b) := by
  refine ⟨by simp, ?_, ?_⟩
  · intro c hc
    rw [getD_set_other _ _ _ _ _ (by omega), getD_set_other _ _ _ _ _ (by omega),
      getD_set_other _ _ _ _ _ (by omega)]
  · intro hlen c hc
    have h0 : 0 < a.length := by omega
    have h1 : 1 < (a.set 0 b).length := by rw [List.length_set]; omega
    have h2 : 2 < ((a.set 0 b).set 1 b).length := by rw [List.length_set, List.length_set]; omega
    rcases Nat.lt_succ_iff_lt_or_eq.mp hc with hc | rfl
    · rcases Nat.lt_succ_iff_lt_or_eq.mp hc with hc | rfl
      · have : c = 0 := by omega
        subst this
        rw [getD_set_other _ _ _ _ _ (by omega), getD_set_other _ _ _ _ _ (by omega)]
        exact getD_set_self _ _ _ _ h0
      · rw [getD_set_other _ _ _ _ _ (by omega)]
        exact getD_set_self _ _ _ _ h1
    · exact getD_set_self _ _ _ _ h2

theorem call_m_active (s : StFlow) (c : EnergyCall) :
    (s.call c).m_refiner.m_active =
      ((s.m_refiner.m_active.set 0 c.activates).set 1 c.activates).set 2 c.activates := by
  cases c with
  | fixTemperature j => exact fixTemperature_m_active s j
  | solveEnergyEqn j => exact solveEnergyEqn_m_active s j

theorem call_m_points (s : StFlow) (c : EnergyCall) : (s.call c).m_points = s.m_points := by
  cases c with
  | fixTemperature j => exact fixTemperature_m_points s j
  | solveEnergyEqn j => exact solveEnergyEqn_m_points s j

theorem call_length (s : StFlow) (c : EnergyCall) :
    (s.call c).m_do_energy.length = s.m_do_energy.length := by
  cases c with
  | fixTemperature j => exact fixTemperature_length s j
  | solveEnergyEqn j => exact solveEnergyEqn_length s j

theorem calls_concat (s : StFlow) (cs : List EnergyCall) (c : EnergyCall) :
    s.calls (cs ++ [c]) = (s.calls cs).call c := by
  unfold StFlow.calls
  rw [List.foldl_append]
  rfl

theorem calls_frame (s : StFlow) (cs : List EnergyCall) :
    (s.calls cs).m_points = s.m_points ∧
    (s.calls cs).m_do_energy.length = s.m_do_energy.length ∧
    (s.calls cs).m_refiner.m_active.length = s.m_refiner.m_active.length ∧
    ∀ c, 3 ≤ c →
      (s.calls cs).m_refiner.m_active.getD c false = s.m_refiner.m_active.getD c false := by
  induction cs using List.reverseRecOn with
  | nil => exact ⟨rfl, rfl, rfl, fun _ _ => rfl⟩
  | append_singleton cs c ih =>
    obtain ⟨ih1, ih2, ih3, ih4⟩ := ih
    rw [calls_concat]
    refine ⟨?_, ?_, ?_, ?_⟩
    · rw [call_m_points, ih1]
    · rw [call_length, ih2]
    · rw [call_m_active, (setActive_three _ _).1, ih3]
    · intro k hk
      rw [call_m_active, (setActive_three _ _).2.1 k hk, ih4 k hk]

/-- C9 (amended): in every state reached from an initial state by fixTemperature
and solveEnergyEqn calls (each with a valid point or all points), the refiner
components 0, 1, 2 are inactive exactly when the most recent call was
fixTemperature (and active after solveEnergyEqn or without any call); hence they are
inactive whenever the energy equation is disabled at every point of a non-empty
grid.  The active flags of all other components are never changed. -/
theorem energy_toggle_refiner_spec (s : StFlow) (cs : List EnergyCall)
    (hinit : s.initial) (hvalid : ∀ c ∈ cs, s.validCall c = true) :
    (∀ comp, comp < 3 →
      (s.calls cs).m_refiner.m_active.getD comp false = refinerActiveAfter cs) ∧
    (∀ comp, 3 ≤ comp →
      (s.calls cs).m_refiner.m_active.getD comp false = s.m_refiner.m_active.getD comp false) ∧
    (0 < s.m_points → (∀ i, i < s.m_points → (s.calls cs).doEnergy i = false) →
      ∀ comp, comp < 3 → (s.calls cs).m_refiner.m_active.getD comp false = false) := by
  obtain ⟨hflags, hlen, ha0, ha1, ha2⟩ := hinit
  have hfirst : ∀ comp, comp < 3 →
      (s.calls cs).m_refiner.m_active.getD comp false = refinerActiveAfter cs := by
    intro comp hcomp
    rcases List.eq_nil_or_concat cs with h | ⟨cs1, c, h⟩
    · subst h
      have hc : comp = 0 ∨ comp = 1 ∨ comp = 2 := by omega
      rcases hc with rfl | rfl | rfl
      · exact ha0
      · exact ha1
      · exact ha2
    · rw [List.concat_eq_append] at h
      subst h
      have hlast : refinerActiveAfter (cs1 ++ [c]) = c.activates := by
        unfold refinerActiveAfter
        rw [List.getLast?_append]
        rfl
      rw [hlast, calls_concat, call_m_active]
      exact (setActive_three _ _).2.2 (by rw [(calls_frame s cs1).2.2.1]; exact hlen) comp hcomp
  refine ⟨hfirst, (calls_frame s cs).2.2.2, ?_⟩
  intro hpos hall comp hcomp
  rw [hfirst comp hcomp]
  rcases List.eq_nil_or_concat cs with h | ⟨cs1, c, h⟩
  · subst h
    exfalso
    have h0 := hall 0 hpos
    have : s.doEnergy 0 = true := by
      unfold StFlow.doEnergy
      rw [hflags]
      cases hp : s.m_points with
      | zero => omega
      | succ n => rfl
    have h1 : (s.calls []).doEnergy 0 = s.doEnergy 0 := rfl
    rw [h1, this] at h0
    exact Bool.noConfusion h0
  · rw [List.concat_eq_append] at h
    subst h
    have hlast : refinerActiveAfter (cs1 ++ [c]) = c.activates := by
      unfold refinerActiveAfter
      rw [List.getLast?_append]
      rfl
    rw [hlast]
    cases c with
    | fixTemperature j => rfl
    | solveEnergyEqn j =>
      exfalso
      have hv : s.validCall (EnergyCall.solveEnergyEqn j) = true :=
        hvalid _ (List.mem_append_right _ (List.mem_singleton_self _))
      have hv2 : j = npos ∨ j < s.m_points := by
        unfold StFlow.validCall EnergyCall.point at hv
        simpa using hv
      have hpts := (calls_frame s cs1).1
      have hl : (s.calls cs1).m_do_energy.length = s.m_points := by
        rw [(calls_frame s cs1).2.1, hflags, List.length_replicate]
      rw [calls_concat] at hall
      change ∀ i, i < s.m_points → ((s.calls cs1).solveEnergyEqn j).doEnergy i = false at hall
      by_cases hn : j = npos
      · have h0 := hall 0 hpos
        rw [solveEnergyEqn_doEnergy, if_pos] at h0
        · exact Bool.noConfusion h0
        · refine ⟨?_, by rw [hl]; exact hpos⟩
          unfold StFlow.addressed
          rw [if_pos hn, hpts]
          exact decide_eq_true hpos
      · have hj : j < s.m_points := by
          rcases hv2 with h | h
          · exact absurd h hn
          · exact h
        have h0 := hall j hj
        rw [solveEnergyEqn_doEnergy, if_pos] at h0
        · exact Bool.noConfusion h0
        · refine ⟨?_, by rw [hl]; exact hj⟩
          unfold StFlow.addressed
          rw [if_neg hn]
          exact decide_eq_true rfl

/-- Witness of the amended C9 on the two-point example: after fixing the
temperature everywhere and re-enabling the energy equation at point `0`, the
components 0, 1, 2 are in the state set by the last call, solveEnergyEqn; and after
fixing the temperature everywhere, where the energy equation is disabled at every
point, component 0 is inactive. -/
theorem energy_toggle_refiner_spec_witness :
    ((toggle_example_flow.calls
        [EnergyCall.fixTemperature npos, EnergyCall.solveEnergyEqn 0]).m_refiner.m_active.getD
          0 false
        = refinerActiveAfter [EnergyCall.fixTemperature npos, EnergyCall.solveEnergyEqn 0] ∧
      (toggle_example_flow.calls
        [EnergyCall.fixTemperature npos, EnergyCall.solveEnergyEqn 0]).m_refiner.m_active.getD
          1 false
        = refinerActiveAfter [EnergyCall.fixTemperature npos, EnergyCall.solveEnergyEqn 0] ∧
      (toggle_example_flow.calls
        [EnergyCall.fixTemperature npos, EnergyCall.solveEnergyEqn 0]).m_refiner.m_active.getD
          2 false
        = refinerActiveAfter [EnergyCall.fixTemperature npos, EnergyCall.solveEnergyEqn 0]) ∧
    (toggle_example_flow.calls [EnergyCall.fixTemperature npos]).m_refiner.m_active.getD 0 false
      = false :=
  have h := (energy_toggle_refiner_spec toggle_example_flow
    [EnergyCall.fixTemperature npos, EnergyCall.solveEnergyEqn 0]
    (by decide) (by decide)).1
  have h2 := (energy_toggle_refiner_spec toggle_example_flow [EnergyCall.fixTemperature npos]
    (by decide) (by decide)).2.2 (by decide) (by decide)
  ⟨⟨h 0 (by decide), h 1 (by decide), h 2 (by decide)⟩, h2 0 (by decide)⟩

/-! ## Counting the new points -/

theorem size_t_to_int_small (n : Nat) (h : n < 2 ^ 31) : size_t_to_int n = (n : Int) := by
  unfold size_t_to_int
  have h1 : n % 2 ^ 32 = n := Nat.mod_eq_of_lt (by omega)
  rw [h1, if_pos h]

theorem newPointNeeded_iff_mem_keys (r : Refiner) (j : Int) :
    r.newPointNeeded j = true ↔ j ∈ r.m_loc.keys := by
  unfold Refiner.newPointNeeded
  rw [AList.lookup_isSome, AList.mem_keys]

theorem m_loc_keys_length (r : Refiner) : r.m_loc.keys.length = r.m_loc.entries.length := by
  unfold AList.keys List.keys
  exact List.length_map _ _

/-- C7: for every refiner state whose insertion map holds fewer than `2 ^ 31`
entries (so that the `int` result represents the size), `nNewPoints()` equals the
number of distinct indices `j` for which `newPointNeeded(j)` is true, and
`nNewPoints() == 0` if and only if `newPointNeeded(j)` is false for every `j`. -/
theorem nNewPoints_spec (r : Refiner) (hsize : r.m_loc.entries.length < 2 ^ 31) :
    r.nNewPoints = ((Set.ncard {j : Int | r.newPointNeeded j = true} : Nat) : Int) ∧
    (r.nNewPoints = 0 ↔ ∀ j : Int, r.newPointNeeded j = false) := by
  have hset : {j : Int | r.newPointNeeded j = true} = ↑(r.m_loc.keys.toFinset) := by
    ext j
    simp [newPointNeeded_iff_mem_keys]
  have hcard : Set.ncard {j : Int | r.newPointNeeded j = true} = r.m_loc.entries.length := by
    rw [hset, Set.ncard_coe_Finset, List.toFinset_card_of_nodup r.m_loc.keys_nodup,
      m_loc_keys_length]
  have hn : r.nNewPoints = (r.m_loc.entries.length : Int) := size_t_to_int_small _ hsize
  refine ⟨by rw [hn, hcard], ?_⟩
  rw [hn, ← m_loc_keys_length]
  constructor
  · intro h j
    have h0 : r.m_loc.keys = [] := List.length_eq_zero.mp (by exact_mod_cast h)
    cases hb : r.newPointNeeded j with
    | false => rfl
    | true =>
      have := (newPointNeeded_iff_mem_keys r j).mp hb
      rw [h0] at this
      exact absurd this (List.not_mem_nil j)
  · intro h
    have h0 : r.m_loc.keys = [] := by
      apply List.eq_nil_iff_forall_not_mem.mpr
      intro j hj
      have := (newPointNeeded_iff_mem_keys r j).mpr hj
      rw [h j] at this
      exact Bool.noConfusion this
    rw [h0]
    rfl

/-- Witness of C7: with index 2 flagged twice and index 5 once, `nNewPoints()`
is the number of flagged indices. -/
theorem nNewPoints_spec_witness :
    refiner_example.nNewPoints
      = ((Set.ncard {j : Int | refiner_example.newPointNeeded j = true} : Nat) : Int) ∧
    (refiner_example.nNewPoints = 0 ↔ ∀ j : Int, refiner_example.newPointNeeded j = false) :=
  nNewPoints_spec refiner_example (by decide)

/-! ## Grid refinement by the ratio criterion -/

theorem mem_foldl_insert (l : List Nat) (m : AList (fun _ : Int => Int)) (j : Int) :
    j ∈ l.foldl (fun (m : AList (fun _ : Int => Int)) (i : Nat) => m.insert (i : Int) 1) m ↔
      j ∈ m ∨ ∃ i, i ∈ l ∧ (i : Int) = j := by
  induction l generalizing m with
  | nil => simp
  | cons a l ih =>
    rw [List.foldl_cons, ih, AList.mem_insert]
    constructor
    · rintro ((h | h) | ⟨i, hi, hij⟩)
      · exact Or.inr ⟨a, List.mem_cons_self a l, h.symm⟩
      · exact Or.inl h
      · exact Or.inr ⟨i, List.mem_cons_of_mem a hi, hij⟩
    · rintro (h | ⟨i, hi, hij⟩)
      · exact Or.inl (Or.inr h)
      · rcases List.mem_cons.mp hi with rfl | hi
        · exact Or.inl (Or.inl hij.symm)
        · exact Or.inr ⟨i, hi, hij⟩

theorem newPointNeeded_analyze (r : Refiner) (pol : RefinePolicy) (z x : List doublereal)
    (i : Nat) :
    (r.analyze pol z x).newPointNeeded (i : Int) = true ↔ i ∈ r.acceptedInsertions pol z x := by
  unfold Refiner.newPointNeeded Refiner.analyze Refiner.recorded
  rw [AList.lookup_isSome, mem_foldl_insert]
  constructor
  · rintro (h | ⟨k, hk, hki⟩)
    · exact absurd h (AList.not_mem_empty _)
    · have : k = i := by exact_mod_cast hki
      rw [← this]; exact hk
  · intro h
    exact Or.inr ⟨i, h, rfl⟩

theorem acceptedInsertions_of_room (r : Refiner) (pol : RefinePolicy) (z x : List doublereal)
    (hcap : (z.length : Int) + ((r.requiredInsertions pol z x).length : Int) ≤ r.m_npmax)
    (i : Nat) :
    i ∈ r.acceptedInsertions pol z x ↔ i ∈ r.requiredInsertions pol z x := by
  unfold Refiner.acceptedInsertions
  rw [List.take_of_length_le, List.mem_insertionSort]
  rw [List.length_insertionSort]
  omega

theorem requiredInsertions_of_ratio (r : Refiner) (pol : RefinePolicy) (z x : List doublereal)
    (i : Nat) (hi : i + 1 < z.length) (h : Refiner.ratioFlagged r.m_ratio z i = true) :
    i ∈ r.requiredInsertions pol z x := by
  unfold Refiner.requiredInsertions
  rw [List.mem_filter, List.mem_range]
  exact ⟨by omega, by rw [h]; rfl⟩

theorem newGridFrom_lower (r : Refiner) (l : List doublereal) :
    ∀ (j : Nat) (a : doublereal) (rest : List doublereal), l = a :: rest →
      (a :: rest).Pairwise (· < ·) → ∀ y, y ∈ r.newGridFrom j (a :: rest) → a ≤ y := by
  induction l with
  | nil => intro j a rest h; cases h
  | cons c l ih =>
    intro j a rest h hs y hy
    cases h
    cases l with
    | nil =>
      unfold Refiner.newGridFrom at hy
      split at hy
      · rw [List.mem_singleton] at hy; exact le_of_eq hy.symm
      · exact absurd hy (List.not_mem_nil y)
    | cons b rest =>
      have hab : c < b := (List.pairwise_cons.mp hs).1 b (List.mem_cons_self b rest)
      unfold Refiner.newGridFrom at hy
      rcases List.mem_append.mp hy with h1 | h1
      · split at h1
        · rw [List.mem_singleton] at h1; exact le_of_eq h1.symm
        · exact absurd h1 (List.not_mem_nil y)
      · rcases List.mem_append.mp h1 with h2 | h2
        · split at h2
          · rw [List.mem_singleton] at h2
            rw [h2]
            linarith
          · exact absurd h2 (List.not_mem_nil y)
        · have := ih (j + 1) b rest rfl (List.pairwise_cons.mp hs).2 y h2
          linarith

theorem newGridFrom_pairwise (r : Refiner) (l : List doublereal) :
    ∀ (j : Nat), l.Pairwise (· < ·) → (r.newGridFrom j l).Pairwise (· < ·) := by
  induction l with
  | nil => intro j _; unfold Refiner.newGridFrom; exact List.Pairwise.nil
  | cons c l ih =>
    intro j hs
    cases l with
    | nil =>
      unfold Refiner.newGridFrom
      split
      · exact List.pairwise_singleton _ _
      · exact List.Pairwise.nil
    | cons b rest =>
      have hab : c < b := (List.pairwise_cons.mp hs).1 b (List.mem_cons_self b rest)
      have htail := (List.pairwise_cons.mp hs).2
      have hrec := ih (j + 1) htail
      have hlow := newGridFrom_lower r (b :: rest) (j + 1) b rest rfl htail
      unfold Refiner.newGridFrom
      have hmid : ((if r.newPointNeeded (j : Int) then [(c + b) / 2] else []) ++
          r.newGridFrom (j + 1) (b :: rest)).Pairwise (· < ·) := by
        rw [List.pairwise_append]
        refine ⟨?_, hrec, ?_⟩
        · split
          · exact List.pairwise_singleton _ _
          · exact List.Pairwise.nil
        · intro u hu v hv
          split at hu
          · rw [List.mem_singleton] at hu
            have := hlow v hv
            rw [hu]
            linarith
          · exact absurd hu (List.not_mem_nil u)
      rw [List.pairwise_append]
      refine ⟨?_, hmid, ?_⟩
      · split
        · exact List.pairwise_singleton _ _
        · exact List.Pairwise.nil
      · intro u hu v hv
        split at hu
        · rw [List.mem_singleton] at hu
          rw [hu]
          rcases List.mem_append.mp hv with h2 | h2
          · split at h2
            · rw [List.mem_singleton] at h2
              rw [h2]
              linarith
            · exact absurd h2 (List.not_mem_nil v)
          · have := hlow v h2
            linarith
        · exact absurd hu (List.not_mem_nil u)

theorem newGridFrom_midpoint (r : Refiner) (l : List doublereal) :
    ∀ (j k : Nat), k + 1 < l.length → r.newPointNeeded ((j + k : Nat) : Int) = true →
      (l.getD k 0 + l.getD (k + 1) 0) / 2 ∈ r.newGridFrom j l := by
  induction l with
  | nil => intro j k hk; simp at hk
  | cons c l ih =>
    intro j k hk hn
    cases l with
    | nil => simp at hk
    | cons b rest =>
      unfold Refiner.newGridFrom
      cases k with
      | zero =>
        apply List.mem_append_right
        apply List.mem_append_left
        rw [Nat.add_zero] at hn
        rw [if_pos hn]
        exact List.mem_singleton_self _
      | succ k =>
        apply List.mem_append_right
        apply List.mem_append_right
        have hk2 : k + 1 < (b :: rest).length := by
          simp only [List.length_cons] at hk ⊢
          omega
        have hn2 : r.newPointNeeded ((j + 1 + k : Nat) : Int) = true := by
          have : j + 1 + k = j + (k + 1) := by omega
          rw [this]; exact hn
        exact ih (j + 1) k hk2 hn2

/-- C8 (as stated, refuted): with the default criteria and a maximum of 4 points,
on the strictly increasing grid `0, 1, 1.1, 10` and a constant solution, the
interval after index 2 is more than 10 times longer than the interval before it,
yet `analyze` flags no insertion after index 2 and the new grid does not contain
the midpoint `5.55`; the same holds for a smaller maximum, such as 0. -/
theorem ratio_insertion_at_cap_fails :
    ratio_example_grid.Pairwise (· < ·) ∧
    refiner_at_cap.m_ratio = 10 ∧
    Refiner.spacing ratio_example_grid 2 > 10 * Refiner.spacing ratio_example_grid 1 ∧
    (refiner_at_cap.analyze ratio_only_policy ratio_example_grid
      ratio_example_x).newPointNeeded 2 = false ∧
    (ratio_example_grid.getD 2 0 + ratio_example_grid.getD 3 0) / 2 ∉
      (refiner_at_cap.analyze ratio_only_policy ratio_example_grid
        ratio_example_x).getNewGrid ratio_example_grid ∧
    refiner_no_room.m_ratio = 10 ∧
    (refiner_no_room.analyze ratio_only_policy ratio_example_grid
      ratio_example_x).newPointNeeded 2 = false ∧
    (ratio_example_grid.getD 2 0 + ratio_example_grid.getD 3 0) / 2 ∉
      (refiner_no_room.analyze ratio_only_policy ratio_example_grid
        ratio_example_x).getNewGrid ratio_example_grid := by
  have hgrid : (refiner_at_cap.analyze ratio_only_policy ratio_example_grid
      ratio_example_x).getNewGrid ratio_example_grid = ratio_example_grid := by
    rfl
  have hgrid0 : (refiner_no_room.analyze ratio_only_policy ratio_example_grid
      ratio_example_x).getNewGrid ratio_example_grid = ratio_example_grid := by
    rfl
  have hmid : ((11 : ℚ) / 10 + 10) / 2 ∉ [0, 1, 11 / 10, 10] := by norm_num
  refine ⟨?_, rfl, ?_, by decide, ?_, rfl, by decide, ?_⟩
  · unfold ratio_example_grid
    norm_num
  · show (10 : ℚ) - 11 / 10 > 10 * (11 / 10 - 1)
    norm_num
  · rw [hgrid]
    exact hmid
  · rw [hgrid0]
    exact hmid

theorem ratio_refinement_core (r : Refiner) (pol : RefinePolicy) (z x : List doublereal)
    (hcap : (z.length : Int) +
        (((r.setCriteria Refiner.default_ratio Refiner.default_slope
          Refiner.default_curve).requiredInsertions pol z x).length : Int) ≤ r.m_npmax)
    (i : Nat) (hi : i + 1 < z.length)
    (hratio : (1 ≤ i ∧ Refiner.spacing z i > 10 * Refiner.spacing z (i - 1)) ∨
      (i + 2 < z.length ∧ Refiner.spacing z i > 10 * Refiner.spacing z (i + 1))) :
    ((r.setCriteria Refiner.default_ratio Refiner.default_slope
      Refiner.default_curve).analyze pol z x).newPointNeeded (i : Int) = true ∧
    (z.getD i 0 + z.getD (i + 1) 0) / 2 ∈
      ((r.setCriteria Refiner.default_ratio Refiner.default_slope
        Refiner.default_curve).analyze pol z x).getNewGrid z := by
  have hflag : Refiner.ratioFlagged
      (r.setCriteria Refiner.default_ratio Refiner.default_slope Refiner.default_curve).m_ratio
      z i = true := by
    have hr : (r.setCriteria Refiner.default_ratio Refiner.default_slope
        Refiner.default_curve).m_ratio = 10 := rfl
    rw [hr]
    unfold Refiner.ratioFlagged
    rcases hratio with ⟨h1, h2⟩ | ⟨h1, h2⟩
    · simp [hi, h1, h2]
    · simp [hi, h1, h2]
  have hneeded : ((r.setCriteria Refiner.default_ratio Refiner.default_slope
      Refiner.default_curve).analyze pol z x).newPointNeeded (i : Int) = true := by
    rw [newPointNeeded_analyze, acceptedInsertions_of_room _ _ _ _ hcap]
    exact requiredInsertions_of_ratio _ _ _ _ _ hi hflag
  refine ⟨hneeded, ?_⟩
  apply newGridFrom_midpoint _ z 0 i hi
  rw [Nat.zero_add]
  exact hneeded

/-- C8 (amended): with the default criteria (ratio = 10), for every strictly
increasing grid `getNewGrid` returns a strictly increasing grid; and when the
maximum point count leaves room for every required insertion, an interval
`[z[i], z[i+1]]` that is more than 10 times longer than an adjacent interval gets
an insertion flagged after index `i` by `analyze`, and the new grid contains the
midpoint `(z[i] + z[i+1]) / 2`.  In particular, for the grid `0, 1, 1.1, 10` with
such a maximum, an insertion is flagged after index 2 (between 1.1 and 10) and the
new grid contains `5.55`. -/
theorem ratio_refinement_spec (r : Refiner) (pol : RefinePolicy) (z x : List doublereal)
    (hz : z.Pairwise (· < ·)) :
    (((r.setCriteria Refiner.default_ratio Refiner.default_slope Refiner.default_curve).analyze
      pol z x).getNewGrid z).Pairwise (· < ·) ∧
    ((z.length : Int) +
        (((r.setCriteria Refiner.default_ratio Refiner.default_slope
          Refiner.default_curve).requiredInsertions pol z x).length : Int) ≤ r.m_npmax →
      ∀ i, i + 1 < z.length →
        ((1 ≤ i ∧ Refiner.spacing z i > 10 * Refiner.spacing z (i - 1)) ∨
          (i + 2 < z.length ∧ Refiner.spacing z i > 10 * Refiner.spacing z (i + 1))) →
        ((r.setCriteria Refiner.default_ratio Refiner.default_slope
          Refiner.default_curve).analyze pol z x).newPointNeeded (i : Int) = true ∧
        (z.getD i 0 + z.getD (i + 1) 0) / 2 ∈
          ((r.setCriteria Refiner.default_ratio Refiner.default_slope
            Refiner.default_curve).analyze pol z x).getNewGrid z) ∧
    ((ratio_example_grid.length : Int) +
        (((r.setCriteria Refiner.default_ratio Refiner.default_slope
          Refiner.default_curve).requiredInsertions pol ratio_example_grid x).length : Int)
          ≤ r.m_npmax →
      ((r.setCriteria Refiner.default_ratio Refiner.default_slope
        Refiner.default_curve).analyze pol ratio_example_grid x).newPointNeeded 2 = true ∧
      (111 / 20 : doublereal) ∈
        ((r.setCriteria Refiner.default_ratio Refiner.default_slope
          Refiner.default_curve).analyze pol ratio_example_grid x).getNewGrid
            ratio_example_grid) := by
  refine ⟨newGridFrom_pairwise _ z 0 hz, ?_, ?_⟩
  · intro hcap i hi hratio
    exact ratio_refinement_core r pol z x hcap i hi hratio
  · intro hcap
    have hratio : Refiner.spacing ratio_example_grid 2
        > 10 * Refiner.spacing ratio_example_grid 1 :=
      show (10 : ℚ) - 11 / 10 > 10 * (11 / 10 - 1) by norm_num
    have h := ratio_refinement_core r pol ratio_example_grid x hcap 2 (by decide)
      (Or.inl ⟨by decide, hratio⟩)
    have hmid : (ratio_example_grid.getD 2 0 + ratio_example_grid.getD (2 + 1) 0) / 2
        = (111 / 20 : doublereal) :=
      show ((11 : ℚ) / 10 + 10) / 2 = 111 / 20 by norm_num
    rw [hmid] at h
    exact h

/-- Witness of the amended C8: the ratio smoothing example.  With the default
criteria and a maximum of 1000 points, on the grid `0, 1, 1.1, 10` an insertion is
flagged after index 2 (between 1.1 and 10) and the new grid contains the midpoint
of that interval, `5.55`. -/
theorem ratio_refinement_spec_witness :
    (refiner_default.analyze ratio_only_policy ratio_example_grid
      ratio_example_x).newPointNeeded 2 = true ∧
    (ratio_example_grid.getD 2 0 + ratio_example_grid.getD 3 0) / 2 ∈
      (refiner_default.analyze ratio_only_policy ratio_example_grid
        ratio_example_x).getNewGrid ratio_example_grid ∧
    (ratio_example_grid.getD 2 0 + ratio_example_grid.getD 3 0) / 2 = 111 / 20 :=
  have hz : ratio_example_grid.Pairwise (· < ·) := by
    unfold ratio_example_grid
    norm_num
  have hcap : ((ratio_example_grid.length : Int) +
      (((refiner_fresh.setCriteria Refiner.default_ratio Refiner.default_slope
        Refiner.default_curve).requiredInsertions ratio_only_policy ratio_example_grid
          ratio_example_x).length : Int) ≤ refiner_fresh.m_npmax) := by
    have hlen := List.length_filter_le
      (fun i => Refiner.ratioFlagged (refiner_fresh.setCriteria Refiner.default_ratio
        Refiner.default_slope Refiner.default_curve).m_ratio ratio_example_grid i ||
          decide (i ∈ ratio_only_policy.componentFlags (refiner_fresh.setCriteria
            Refiner.default_ratio Refiner.default_slope Refiner.default_curve)
            ratio_example_grid ratio_example_x))
      (List.range (ratio_example_grid.length - 1))
    have h3 : (List.range (ratio_example_grid.length - 1)).length = 3 := rfl
    have h4 : ratio_example_grid.length = 4 := rfl
    have h5 : refiner_fresh.m_npmax = 1000 := rfl
    unfold Refiner.requiredInsertions
    rw [h4, h5]
    rw [h3] at hlen
    rw [h4] at hlen
    omega
  have hratio : Refiner.spacing ratio_example_grid 2 > 10 * Refiner.spacing ratio_example_grid 1 :=
    show (10 : ℚ) - 11 / 10 > 10 * (11 / 10 - 1) by norm_num
  have h := (ratio_refinement_spec refiner_fresh ratio_only_policy ratio_example_grid
    ratio_example_x hz).2.1 hcap 2 (by decide) (Or.inl ⟨by decide, hratio⟩)
  ⟨h.1, h.2, show ((11 : ℚ) / 10 + 10) / 2 = 111 / 20 by norm_num⟩

end Cantera
